import Mathlib

/-!
# Terra Discover API — verification of the Space mutation engine

Shallow embedding of the `Space` resource mutation engine of the
`terra-discover-api` repository:

* `src/utils/generateSlug.ts` — `ensureUniqueSlug` (slug generation loop);
* `src/features/spaces/route.ts` — the POST / (create), PATCH /{identifier}
  (update) and DELETE /{id} (delete) handlers of `spaceRoutes`, including
  their `catch` blocks (persistence-error mapping);
* `src/features/spaces/schema.ts` — the request payload shapes
  (`CreateSpaceRequestSchema`, `UpdateSpaceRequestSchema =
  CreateSpaceRequestSchema.partial()`).

Modelling conventions:

* The Prisma store is a pure value `Db`: a list of `Space` rows plus the id
  column of each of the three taxonomy tables (`SpaceType`, `SpaceCategory`,
  `SpaceFeature`).  Only taxonomy ids are consulted by the mutation engine;
  taxonomy names appear solely in response shaping, which no claim touches.
* The external `slugify` library is kept abstract: the two call shapes used
  by the source — `slugify(name, { lower: true, strict: true })` and
  `slugify(name)` (default options) — become two function parameters
  `slugStrict` and `slugDefault`.
* JS `undefined`-vs-present is `Option`; a field that zod types as
  `nullable().optional()` becomes `Option (Option _)` (absent / present-null
  / present-value).  The opaque JSON document columns are modelled as opaque
  `Option String` payloads: the code never inspects them.
* Prisma-generated cuids (`id` of a fresh row) and timestamps are produced by
  the store; the fresh id is a parameter of `createSpace`, timestamps are not
  modelled (no claim mentions them).
* The unbounded `while` loop of `ensureUniqueSlug` is embedded with explicit
  fuel (`ensureUniqueSlugGo`); termination with fuel `|existing| + 2` is
  proved (`C8`), and the total wrapper `ensureUniqueSlugT` is what the
  handlers use.
-/

namespace Terra

/-- A row of the `Space` table (prisma/schema.prisma, model `Space`).
`operatingHours`, `entranceFee`, `contactInfo`, `accessibility` are nullable
JSON documents, opaque to the code; `historicalContext` and
`architecturalStyle` are nullable text columns.  `createdAt`/`updatedAt` are
store-managed and not consulted by any modelled operation. -/
structure Space where
  id : String
  name : String
  slug : String
  alternateNames : List String
  description : String
  activities : List String
  historicalContext : Option String
  architecturalStyle : Option String
  operatingHours : Option String
  entranceFee : Option String
  contactInfo : Option String
  accessibility : Option String
  typeId : String
  submittedById : String
  categoryIds : List String
  featureIds : List String
  deriving Repr, DecidableEq

/-- The persistent store: the `Space` table plus the id columns of the three
taxonomy tables. -/
structure Db where
  spaces : List Space
  typeIds : List String
  categoryIds : List String
  featureIds : List String
  deriving Repr, DecidableEq

/-- `CreateSpaceRequestSchema` (spaces/schema.ts): `name` and `typeId`
required; `description`, `historicalContext`, `architecturalStyle` are
`nullable().optional()`; the JSON document fields are nullable and optional;
the list fields are optional (never null). -/
structure CreatePayload where
  name : String
  alternateNames : Option (List String)
  description : Option (Option String)
  activities : Option (List String)
  historicalContext : Option (Option String)
  architecturalStyle : Option (Option String)
  operatingHours : Option (Option String)
  entranceFee : Option (Option String)
  contactInfo : Option (Option String)
  accessibility : Option (Option String)
  typeId : String
  categoryIds : Option (List String)
  featureIds : Option (List String)
  deriving Repr, DecidableEq

/-- `UpdateSpaceRequestSchema = CreateSpaceRequestSchema.partial()`:
every field of `CreatePayload` made optional. -/
structure UpdatePayload where
  name : Option String
  alternateNames : Option (List String)
  description : Option (Option String)
  activities : Option (List String)
  historicalContext : Option (Option String)
  architecturalStyle : Option (Option String)
  operatingHours : Option (Option String)
  entranceFee : Option (Option String)
  contactInfo : Option (Option String)
  accessibility : Option (Option String)
  typeId : Option String
  categoryIds : Option (List String)
  featureIds : Option (List String)
  deriving Repr, DecidableEq

/-- The all-absent PATCH body `{}`. -/
def UpdatePayload.empty : UpdatePayload :=
  ⟨none, none, none, none, none, none, none, none, none, none, none, none, none⟩

/-- Handler outcome: a JSON body with an HTTP status (`ok` carries the shaped
space, `err` carries `{message, code}` per `ErrorResponseSchema`), or the
body-less 204 of DELETE. -/
inductive HResp where
  | ok (code : Nat) (space : Space)
  | err (code : Nat) (message : String)
  | noContent
  deriving Repr, DecidableEq

/-! ## Slug generator (`src/utils/generateSlug.ts`) -/

/-- One candidate tested by the `ensureUniqueSlug` loop: attempt `0` is
`slugify(baseName, { lower: true, strict: true })`; attempt `k ≥ 1` is
`` `${slugify(baseName)}-${counter}` `` with `counter = k`. -/
def slugCandidate (strictSlug defaultSlug : String) : Nat → String
  | 0 => strictSlug
  | Nat.succ k => defaultSlug ++ "-" ++ Nat.repr (k + 1)

/-- The body of the `while (!isUnique)` loop of `ensureUniqueSlug`, with
explicit fuel.  State: the current candidate `slug` and the `counter` to use
for the next candidate.  `existing` is the set of slugs currently present in
the `Space` table (the loop reads it via `prisma.space.findUnique({ where:
{ slug } })`).  `none` means the fuel ran out before a free slug was found. -/
def ensureUniqueSlugGo (existing : List String) (defaultSlug : String) :
    Nat → String → Nat → Option String
  | 0, _, _ => none
  | Nat.succ fuel, slug, counter =>
    if slug ∈ existing then
      ensureUniqueSlugGo existing defaultSlug fuel
        (defaultSlug ++ "-" ++ Nat.repr counter) (counter + 1)
    else some slug

/-- `ensureUniqueSlug(baseName)`: start from the strict lowercase candidate
with `counter = 1`.  Fuel `existing.length + 2` is proved sufficient below
(`ensureUniqueSlugGo_isSome`). -/
def ensureUniqueSlug (slugStrict slugDefault : String → String)
    (existing : List String) (baseName : String) : Option String :=
  ensureUniqueSlugGo existing (slugDefault baseName)
    (existing.length + 2) (slugStrict baseName) 1

/-- Total wrapper used by the handlers; the default is never reached
(`ensureUniqueSlugT_eq_go`). -/
def ensureUniqueSlugT (slugStrict slugDefault : String → String)
    (existing : List String) (baseName : String) : String :=
  (ensureUniqueSlug slugStrict slugDefault existing baseName).getD
    (slugStrict baseName)

/-! ### Injectivity of decimal rendering

The slug loop's retry candidates are `defaultSlug ++ "-" ++ Nat.repr k` for
`k = 1, 2, …`; to bound the loop we prove those strings pairwise distinct,
which reduces to injectivity of `Nat.repr`. -/

theorem string_data_inj {s t : String} (h : s.data = t.data) : s = t := by
  cases s; cases t; exact congrArg String.mk h

theorem data_append (s t : String) : (s ++ t).data = s.data ++ t.data := by
  cases s; cases t; rfl

theorem digitChar_injOn :
    ∀ x < 10, ∀ y < 10, Nat.digitChar x = Nat.digitChar y → x = y := by decide

theorem map_digitChar_inj : ∀ (l₁ l₂ : List Nat),
    (∀ x ∈ l₁, x < 10) → (∀ x ∈ l₂, x < 10) →
    l₁.map Nat.digitChar = l₂.map Nat.digitChar → l₁ = l₂
  | [], [], _, _, _ => rfl
  | [], _ :: _, _, _, h => by simp at h
  | _ :: _, [], _, _, h => by simp at h
  | a :: l₁, b :: l₂, h₁, h₂, h => by
    simp only [List.map_cons, List.cons.injEq] at h
    have ha := h₁ a (List.mem_cons_self a l₁)
    have hb := h₂ b (List.mem_cons_self b l₂)
    have hab := digitChar_injOn a ha b hb h.1
    have htl := map_digitChar_inj l₁ l₂
      (fun x hx => h₁ x (List.mem_cons_of_mem a hx))
      (fun x hx => h₂ x (List.mem_cons_of_mem b hx)) h.2
    rw [hab, htl]

theorem toDigitsCore_eq_digits (n : Nat) : ∀ (f : Nat) (ds : List Char),
    1 ≤ n → n < f →
    Nat.toDigitsCore 10 f n ds =
      ((Nat.digits 10 n).map Nat.digitChar).reverse ++ ds := by
  induction n using Nat.strong_induction_on with
  | _ n ih =>
    intro f ds hn hf
    match f, hf with
    | f + 1, hf =>
      rw [Nat.toDigitsCore]
      have hd : Nat.digits 10 n = n % 10 :: Nat.digits 10 (n / 10) :=
        Nat.digits_def' (by norm_num) hn
      by_cases h0 : n / 10 = 0
      · simp only [h0, if_pos rfl]
        rw [hd, h0]
        simp
      · simp only [h0, if_neg h0]
        have hlt : n / 10 < n := Nat.div_lt_self hn (by norm_num)
        rw [ih (n / 10) hlt f _ (Nat.pos_of_ne_zero h0) (by omega), hd]
        simp

theorem repr_eq_digits (n : Nat) (h : 1 ≤ n) :
    Nat.repr n = (((Nat.digits 10 n).map Nat.digitChar).reverse).asString := by
  show (Nat.toDigits 10 n).asString = _
  rw [Nat.toDigits, toDigitsCore_eq_digits n (n + 1) [] h (Nat.lt_succ_self n),
    List.append_nil]

theorem digits_bounded (n : Nat) : ∀ x ∈ Nat.digits 10 n, x < 10 :=
  fun _ hx => Nat.digits_lt_base (by norm_num) hx

theorem natRepr_injective : Function.Injective Nat.repr := by
  have key : ∀ a b : Nat, 1 ≤ a → 1 ≤ b → Nat.repr a = Nat.repr b → a = b := by
    intro a b ha hb h
    rw [repr_eq_digits a ha, repr_eq_digits b hb] at h
    have hdata := congrArg String.data h
    simp only [List.asString] at hdata
    have hrev := List.reverse_injective hdata
    have hdig := map_digitChar_inj _ _ (digits_bounded a) (digits_bounded b) hrev
    calc a = Nat.ofDigits 10 (Nat.digits 10 a) := (Nat.ofDigits_digits 10 a).symm
      _ = Nat.ofDigits 10 (Nat.digits 10 b) := by rw [hdig]
      _ = b := Nat.ofDigits_digits 10 b
  have zero_ne : ∀ b : Nat, 1 ≤ b → Nat.repr 0 ≠ Nat.repr b := by
    intro b hb h
    rw [repr_eq_digits b hb] at h
    have hdata := congrArg String.data h
    simp only [List.asString] at hdata
    have h0 : (Nat.repr 0).data = ['0'] := rfl
    rw [h0] at hdata
    have hrev : (Nat.digits 10 b).map Nat.digitChar = ['0'] := by
      have := congrArg List.reverse hdata
      simpa using this.symm
    have hdig : Nat.digits 10 b = [0] :=
      map_digitChar_inj _ _ (digits_bounded b) (by simp) (by simpa using hrev)
    have : b = 0 := by
      calc b = Nat.ofDigits 10 (Nat.digits 10 b) := (Nat.ofDigits_digits 10 b).symm
        _ = 0 := by rw [hdig]; simp [Nat.ofDigits]
    omega
  intro a b h
  match a, b with
  | 0, 0 => rfl
  | 0, b + 1 => exact absurd h (zero_ne (b + 1) (Nat.succ_le_succ (Nat.zero_le b)))
  | a + 1, 0 => exact absurd h.symm (zero_ne (a + 1) (Nat.succ_le_succ (Nat.zero_le a)))
  | a + 1, b + 1 =>
    exact key (a + 1) (b + 1) (Nat.succ_le_succ (Nat.zero_le a))
      (Nat.succ_le_succ (Nat.zero_le b)) h

theorem counterCandidate_inj (d : String) {a b : Nat}
    (h : d ++ "-" ++ Nat.repr a = d ++ "-" ++ Nat.repr b) : a = b := by
  have hdata := congrArg String.data h
  rw [data_append, data_append] at hdata
  have := List.append_cancel_left hdata
  exact natRepr_injective (string_data_inj this)

/-! ### Termination and characterisation of the slug loop -/

/-- Among the counters `1 … existing.length + 1`, some suffixed candidate is
free: the candidates are pairwise distinct and `existing` is too short to
contain them all. -/
theorem exists_fresh_counter (existing : List String) (d : String) :
    ∃ k, 1 ≤ k ∧ k ≤ existing.length + 1 ∧
      (d ++ "-" ++ Nat.repr k) ∉ existing := by
  by_contra hcon
  push_neg at hcon
  have hmaps : ∀ k ∈ Finset.Icc 1 (existing.length + 1),
      (d ++ "-" ++ Nat.repr k) ∈ existing.toFinset := by
    intro k hk
    rw [Finset.mem_Icc] at hk
    rw [List.mem_toFinset]
    exact hcon k hk.1 hk.2
  have hinj : Set.InjOn (fun k => d ++ "-" ++ Nat.repr k)
      (Finset.Icc 1 (existing.length + 1) : Finset Nat) := by
    intro a _ b _ hab
    exact counterCandidate_inj d hab
  have hcard := Finset.card_le_card_of_injOn _ hmaps hinj
  rw [Nat.card_Icc] at hcard
  have hlen := existing.toFinset_card_le
  omega

/-- The candidate tested at the `j`-th membership check of the running loop,
given the loop state (current `slug`, next `counter`). -/
def goCand (d slug : String) (counter : Nat) : Nat → String
  | 0 => slug
  | Nat.succ j => d ++ "-" ++ Nat.repr (counter + j)

theorem goCand_shift (d slug : String) (counter : Nat) (j : Nat) :
    goCand d (d ++ "-" ++ Nat.repr counter) (counter + 1) j =
      goCand d slug counter (j + 1) := by
  match j with
  | 0 => simp [goCand]
  | j + 1 =>
    show d ++ "-" ++ Nat.repr (counter + 1 + j) = d ++ "-" ++ Nat.repr (counter + (j + 1))
    congr 2
    omega

/-- If some candidate within the fuel window is free, the loop succeeds. -/
theorem go_isSome_of_fresh (existing : List String) (d : String) :
    ∀ (fuel : Nat) (slug : String) (counter : Nat),
      (∃ j, j < fuel ∧ goCand d slug counter j ∉ existing) →
      (ensureUniqueSlugGo existing d fuel slug counter).isSome := by
  intro fuel
  induction fuel with
  | zero => intro slug counter ⟨j, hj, _⟩; omega
  | succ n ih =>
    intro slug counter ⟨j, hj, hfree⟩
    rw [ensureUniqueSlugGo]
    by_cases hmem : slug ∈ existing
    · rw [if_pos hmem]
      apply ih
      match j, hj, hfree with
      | 0, _, hfree => exact absurd hmem hfree
      | j + 1, hj, hfree =>
        exact ⟨j, by omega, by rw [goCand_shift d slug counter j]; exact hfree⟩
    · rw [if_neg hmem]
      rfl

/-- With fuel `existing.length + 2`, the loop always returns a slug. -/
theorem ensureUniqueSlugGo_isSome (existing : List String) (d s : String) :
    (ensureUniqueSlugGo existing d (existing.length + 2) s 1).isSome := by
  obtain ⟨k, hk1, hk2, hk⟩ := exists_fresh_counter existing d
  apply go_isSome_of_fresh
  refine ⟨k, by omega, ?_⟩
  match k, hk1 with
  | k + 1, _ =>
    show d ++ "-" ++ Nat.repr (1 + k) ∉ existing
    rw [Nat.add_comm 1 k]
    exact hk

/-- Whatever the loop returns was not an existing slug, is a candidate of the
expected shape, and every earlier candidate was taken. -/
theorem go_spec (existing : List String) (d : String) :
    ∀ (fuel : Nat) (slug : String) (counter : Nat) (r : String),
      ensureUniqueSlugGo existing d fuel slug counter = some r →
      r ∉ existing ∧
        ∃ j, j < fuel ∧ r = goCand d slug counter j ∧
          ∀ i < j, goCand d slug counter i ∈ existing := by
  intro fuel
  induction fuel with
  | zero => intro slug counter r h; simp [ensureUniqueSlugGo] at h
  | succ n ih =>
    intro slug counter r h
    rw [ensureUniqueSlugGo] at h
    by_cases hmem : slug ∈ existing
    · rw [if_pos hmem] at h
      obtain ⟨hr, j, hj, hcand, hprev⟩ := ih _ _ _ h
      refine ⟨hr, j + 1, by omega, ?_, ?_⟩
      · rw [← goCand_shift d slug counter j]; exact hcand
      · intro i hi
        match i with
        | 0 => exact hmem
        | i + 1 =>
          rw [← goCand_shift d slug counter i]
          exact hprev i (by omega)
    · rw [if_neg hmem] at h
      cases h
      exact ⟨hmem, 0, by omega, rfl, by omega⟩

theorem goCand_one (d s : String) (j : Nat) :
    goCand d s 1 j = slugCandidate s d j := by
  match j with
  | 0 => rfl
  | j + 1 =>
    show d ++ "-" ++ Nat.repr (1 + j) = d ++ "-" ++ Nat.repr (j + 1)
    rw [Nat.add_comm 1 j]

/-- Fuel monotonicity: a result found with small fuel is stable under any
larger fuel — the unbounded source loop computes the same slug. -/
theorem go_fuel_mono (existing : List String) (d : String) :
    ∀ (fuel fuel' : Nat) (slug : String) (counter : Nat) (r : String),
      fuel ≤ fuel' →
      ensureUniqueSlugGo existing d fuel slug counter = some r →
      ensureUniqueSlugGo existing d fuel' slug counter = some r := by
  intro fuel
  induction fuel with
  | zero => intro fuel' slug counter r _ h; simp [ensureUniqueSlugGo] at h
  | succ n ih =>
    intro fuel' slug counter r hle h
    match fuel', hle with
    | fuel' + 1, hle =>
      rw [ensureUniqueSlugGo] at h ⊢
      by_cases hmem : slug ∈ existing
      · rw [if_pos hmem] at h ⊢
        exact ih fuel' _ _ _ (by omega) h
      · rwa [if_neg hmem] at h ⊢

/-- The total wrapper agrees with the loop's (always-`some`) result. -/
theorem ensureUniqueSlugT_eq_go (slugStrict slugDefault : String → String)
    (existing : List String) (baseName : String) :
    ensureUniqueSlug slugStrict slugDefault existing baseName =
      some (ensureUniqueSlugT slugStrict slugDefault existing baseName) := by
  have h := ensureUniqueSlugGo_isSome existing (slugDefault baseName)
    (slugStrict baseName)
  rw [ensureUniqueSlugT, ensureUniqueSlug] at *
  obtain ⟨r, hr⟩ := Option.isSome_iff_exists.mp h
  rw [hr]
  rfl

/-! ## Mutation handlers (`src/features/spaces/route.ts`) -/

/-- Batched taxonomy-id validation, shared verbatim between the POST and
PATCH handlers: validate only a present, non-empty list
(`if (categoryIds && categoryIds.length > 0)` on POST,
`if (payload.categoryIds !== undefined)` wrapping the same non-empty guard on
PATCH).  `findMany({ where: { id: { in: ids } } })` over the taxonomy table,
compare counts, and on mismatch name every id that did not resolve. -/
def checkIdList (table : List String) (ids : Option (List String))
    (kind : String) : Option HResp :=
  match ids with
  | none => none
  | some l =>
    if l.length > 0 then
      let found := table.filter (fun x => l.contains x)
      if found.length ≠ l.length then
        let missing := l.filter (fun i => !(found.contains i))
        some (.err 404 ("One or more " ++ kind ++ " IDs not found: " ++
          String.intercalate ", " missing ++ "."))
      else none
    else none

/-- JS `spaceData.description || ""` from the POST handler: `null`,
`undefined` and `""` are the only falsy values of a
`string | null | undefined`, and each of them yields `""`. -/
def descriptionOrEmpty : Option (Option String) → String
  | some (some s) => if s = "" then "" else s
  | some none => ""
  | none => ""

/-- The row inserted by `prisma.space.create` on the POST happy path:
generated id and slug, normalised description, payload scalars (absent
optional scalars fall back to the column defaults: `[]` for list columns,
null for nullable columns), connected type, connected category/feature sets
(`?.map(...) || []`), author = the authenticated caller. -/
def createdSpace (slugStrict slugDefault : String → String) (db : Db)
    (authedUserId freshId : String) (p : CreatePayload) : Space :=
  { id := freshId
    name := p.name
    slug := ensureUniqueSlugT slugStrict slugDefault
      (db.spaces.map (fun s => s.slug)) p.name
    alternateNames := p.alternateNames.getD []
    description := descriptionOrEmpty p.description
    activities := p.activities.getD []
    historicalContext := p.historicalContext.join
    architecturalStyle := p.architecturalStyle.join
    operatingHours := p.operatingHours.join
    entranceFee := p.entranceFee.join
    contactInfo := p.contactInfo.join
    accessibility := p.accessibility.join
    typeId := p.typeId
    submittedById := authedUserId
    categoryIds := p.categoryIds.getD []
    featureIds := p.featureIds.getD [] }

/-- POST `/api/spaces` handler body (happy path; the `catch` block is
`createSpaceCatch` below).  `freshId` is the cuid the store generates for the
inserted row. -/
def createSpace (slugStrict slugDefault : String → String) (db : Db)
    (authedUserId freshId : String) (p : CreatePayload) : HResp × List Space :=
  if p.typeId ∈ db.typeIds then
    match checkIdList db.categoryIds p.categoryIds "Category" with
    | some e => (e, db.spaces)
    | none =>
      match checkIdList db.featureIds p.featureIds "Feature" with
      | some e => (e, db.spaces)
      | none =>
        let sp := createdSpace slugStrict slugDefault db authedUserId freshId p
        (.ok 201 sp, db.spaces ++ [sp])
  else
    (.err 404 ("Space Type with ID \x27" ++ p.typeId ++ "\x27 not found."),
      db.spaces)

/-- The PATCH handler's `typeId` validation: only if provided in the
payload, `findUnique` the type and 404 naming the exact missing id. -/
def checkTypeId (table : List String) (tid : Option String) : Option HResp :=
  match tid with
  | none => none
  | some t =>
    if t ∈ table then none
    else some (.err 404 ("Space Type with ID \x27" ++ t ++ "\x27 not found."))

/-- `prisma.space.findFirst({ where: { OR: [{ id: identifier },
{ slug: identifier }] } })`, used by GET `/{identifier}` and PATCH
`/{identifier}`. -/
def findSpaceByIdOrSlug (spaces : List Space) (identifier : String) :
    Option Space :=
  spaces.find? (fun s => s.id == identifier || s.slug == identifier)

/-- The `updateData` merge applied by `prisma.space.update`: scalar keys
present in the payload are copied (PATCH semantics), `name` change triggers
slug regeneration, relational id lists are `set`-replaced, and a
present-but-null `description` is normalised to `""` after the generic
copy. -/
def mergeUpdate (slugStrict slugDefault : String → String)
    (allSlugs : List String) (sp : Space) (p : UpdatePayload) : Space :=
  { sp with
    name := p.name.getD sp.name
    slug :=
      match p.name with
      | some n =>
        if n ≠ sp.name then ensureUniqueSlugT slugStrict slugDefault allSlugs n
        else sp.slug
      | none => sp.slug
    alternateNames := p.alternateNames.getD sp.alternateNames
    description :=
      match p.description with
      | none => sp.description
      | some none => ""
      | some (some s) => s
    activities := p.activities.getD sp.activities
    historicalContext :=
      match p.historicalContext with
      | none => sp.historicalContext
      | some v => v
    architecturalStyle :=
      match p.architecturalStyle with
      | none => sp.architecturalStyle
      | some v => v
    operatingHours :=
      match p.operatingHours with
      | none => sp.operatingHours
      | some v => v
    entranceFee :=
      match p.entranceFee with
      | none => sp.entranceFee
      | some v => v
    contactInfo :=
      match p.contactInfo with
      | none => sp.contactInfo
      | some v => v
    accessibility :=
      match p.accessibility with
      | none => sp.accessibility
      | some v => v
    typeId := p.typeId.getD sp.typeId
    categoryIds := p.categoryIds.getD sp.categoryIds
    featureIds := p.featureIds.getD sp.featureIds }

/-- PATCH `/api/spaces/{identifier}` handler body (happy path; the `catch`
block is `updateSpaceCatch` below).  In the source the slug regeneration
(a pure read) textually precedes the taxonomy validations; since every
validation failure returns before any write, the outcome is unaffected and we
fold the regenerated slug into `mergeUpdate`. -/
def updateSpace (slugStrict slugDefault : String → String) (db : Db)
    (callerId identifier : String) (p : UpdatePayload) : HResp × List Space :=
  match findSpaceByIdOrSlug db.spaces identifier with
  | none => (.err 404 "Space not found.", db.spaces)
  | some existingSpace =>
    if existingSpace.submittedById ≠ callerId then
      (.err 403 "Forbidden: You do not have permission to update this space.",
        db.spaces)
    else
      match checkTypeId db.typeIds p.typeId with
      | some e => (e, db.spaces)
      | none =>
        match checkIdList db.categoryIds p.categoryIds "Category" with
        | some e => (e, db.spaces)
        | none =>
          match checkIdList db.featureIds p.featureIds "Feature" with
          | some e => (e, db.spaces)
          | none =>
            let merged := mergeUpdate slugStrict slugDefault
              (db.spaces.map (fun s => s.slug)) existingSpace p
            (.ok 200 merged,
              db.spaces.map
                (fun s => if s.id == existingSpace.id then merged else s))

/-- DELETE `/api/spaces/{id}` handler body (happy path; the `catch` block is
`deleteSpaceCatch` below).  Lookup is `findUnique({ where: { id } })` — by id
only. -/
def deleteSpace (db : Db) (callerId id : String) : HResp × List Space :=
  match db.spaces.find? (fun s => s.id == id) with
  | none => (.err 404 "Space not found.", db.spaces)
  | some spaceToDelete =>
    if spaceToDelete.submittedById ≠ callerId then
      (.err 403 "Forbidden: You do not have permission to delete this space.",
        db.spaces)
    else
      (.noContent, db.spaces.filter (fun s => !(s.id == id)))

/-! ## The `catch` blocks: persistence-error mapping -/

/-- A value caught by a handler's `catch`: a
`PrismaClientKnownRequestError` carrying its Prisma error code (`"P2002"` =
unique-constraint violation, `"P2025"` = required related record missing,
…), some other `Error` instance, or a thrown non-`Error` value. -/
inductive CaughtError where
  | known (code : String) (message : String)
  | jsError (message : String)
  | nonError
  deriving Repr, DecidableEq

/-- JS `String.prototype.includes` on char lists. -/
def charsIncludes (needle : List Char) : List Char → Bool
  | [] => needle.isEmpty
  | c :: rest => needle.isPrefixOf (c :: rest) || charsIncludes needle rest

/-- `hay.includes(needle)`. -/
def strIncludes (hay needle : String) : Bool :=
  charsIncludes needle.data hay.data

/-- The PATCH handler's `catch` block: `(status, message)` returned to the
caller. -/
def updateSpaceCatch : CaughtError → Nat × String
  | .known code _ =>
    if code = "P2002" then
      (409, "A space with this name or slug already exists.")
    else if code = "P2025" then
      (404, "One or more related records (type, category, feature) not found.")
    else (500, "Database operation failed unexpectedly.")
  | .jsError message =>
    if strIncludes message "Forbidden" then (403, message)
    else if strIncludes message "not found" then (404, message)
    else if strIncludes message "Validation error" ||
        strIncludes message "Invalid input" then
      (400, "Invalid input data provided.")
    else (500, "An unexpected server error occurred.")
  | .nonError => (500, "An entirely unexpected error occurred.")

/-- The POST handler's `catch` block: every caught error becomes the same
generic 500 response. -/
def createSpaceCatch : CaughtError → Nat × String :=
  fun _ => (500, "Failed to create space due to an internal server error.")

/-- The DELETE handler's `catch` block: only `P2025` is special-cased. -/
def deleteSpaceCatch : CaughtError → Nat × String
  | .known code _ =>
    if code = "P2025" then (404, "Space not found.")
    else (500, "Failed to delete space due to an internal server error.")
  | .jsError _ =>
    (500, "Failed to delete space due to an internal server error.")
  | .nonError =>
    (500, "Failed to delete space due to an internal server error.")

/-! ## Helper lemmas -/

/-- Full characterisation of the slug generator's result: it is free, it is a
candidate of the prescribed shape, and every earlier candidate was taken. -/
theorem ensureUniqueSlugT_spec (slugStrict slugDefault : String → String)
    (existing : List String) (baseName : String) :
    ensureUniqueSlugT slugStrict slugDefault existing baseName ∉ existing ∧
      ∃ k, ensureUniqueSlugT slugStrict slugDefault existing baseName =
          slugCandidate (slugStrict baseName) (slugDefault baseName) k ∧
        ∀ j < k,
          slugCandidate (slugStrict baseName) (slugDefault baseName) j ∈
            existing := by
  have heq := ensureUniqueSlugT_eq_go slugStrict slugDefault existing baseName
  rw [ensureUniqueSlug] at heq
  obtain ⟨hfree, j, _, hcand, hprev⟩ := go_spec existing (slugDefault baseName)
    (existing.length + 2) (slugStrict baseName) 1 _ heq
  refine ⟨hfree, j, ?_, ?_⟩
  · rw [hcand, goCand_one]
  · intro i hi
    rw [← goCand_one]
    exact hprev i hi

/-- For ids drawn from the supplied list, membership in the batched-read
result is membership in the taxonomy table. -/
theorem mem_found_iff (table l : List String) (i : String) (hi : i ∈ l) :
    (table.filter (fun x => l.contains x)).contains i = table.contains i := by
  by_cases hmem : i ∈ table
  · simp [List.contains, List.mem_filter, hmem, hi]
  · simp [List.contains, List.mem_filter, hmem]

/-- The re-filter over the supplied list against the batched-read result
computes exactly the ids absent from the taxonomy table. -/
theorem missing_filter_eq (table l : List String) :
    l.filter (fun i => !((table.filter (fun x => l.contains x)).contains i)) =
      l.filter (fun i => !(table.contains i)) := by
  apply List.filter_congr
  intro i hi
  rw [mem_found_iff table l i hi]

/-- When a duplicate-free taxonomy table misses some supplied id, the batched
read returns strictly fewer rows than ids were supplied. -/
theorem found_length_ne (table l : List String) (hnodup : table.Nodup)
    (b : String) (hbl : b ∈ l) (hbt : b ∉ table) :
    (table.filter (fun x => l.contains x)).length ≠ l.length := by
  have hfs : (table.filter (fun x => l.contains x)).toFinset ⊆
      l.toFinset.erase b := by
    intro x hx
    rw [List.mem_toFinset, List.mem_filter] at hx
    rw [Finset.mem_erase, List.mem_toFinset]
    refine ⟨?_, by simpa using hx.2⟩
    rintro rfl
    exact hbt hx.1
  have hnf : (table.filter (fun x => l.contains x)).Nodup := hnodup.filter _
  have hcard : (table.filter (fun x => l.contains x)).length ≤
      (l.toFinset.erase b).card := by
    rw [← List.toFinset_card_of_nodup hnf]
    exact Finset.card_le_card hfs
  have hb : b ∈ l.toFinset := List.mem_toFinset.mpr hbl
  have herase := Finset.card_erase_of_mem hb
  have hle := l.toFinset_card_le
  have hpos : 0 < l.toFinset.card := Finset.card_pos.mpr ⟨b, hb⟩
  omega

/-- `checkIdList` fails naming exactly the unresolved ids whenever the
supplied list contains one. -/
theorem checkIdList_missing (table l : List String) (kind : String)
    (hnodup : table.Nodup)
    (hne : l.filter (fun i => !(table.contains i)) ≠ []) :
    checkIdList table (some l) kind =
      some (.err 404 ("One or more " ++ kind ++ " IDs not found: " ++
        String.intercalate ", " (l.filter (fun i => !(table.contains i))) ++
        ".")) := by
  obtain ⟨b, hb⟩ := List.exists_mem_of_ne_nil _ hne
  have hbmem := List.mem_filter.mp hb
  have hbl : b ∈ l := hbmem.1
  have hbt : b ∉ table := by simpa using hbmem.2
  rw [checkIdList]
  have hlen : l.length > 0 := List.length_pos.mpr (List.ne_nil_of_mem hbl)
  rw [if_pos hlen, if_pos (found_length_ne table l hnodup b hbl hbt)]
  rw [missing_filter_eq]

/-- `find?` returns the unique matching element. -/
theorem find?_eq_some_of_unique {α : Type} (p : α → Bool) (a : α) :
    ∀ (l : List α), a ∈ l → p a = true →
      (∀ x ∈ l, p x = true → x = a) → l.find? p = some a := by
  intro l
  induction l with
  | nil => intro h; cases h
  | cons x xs ih =>
    intro hmem hpa huniq
    by_cases hx : p x = true
    · rw [List.find?_cons_of_pos _ hx, huniq x (List.mem_cons_self x xs) hx]
    · rw [List.find?_cons_of_neg _ hx]
      have hax : a ≠ x := by rintro rfl; exact hx hpa
      have hmem' : a ∈ xs := by
        cases hmem with
        | head => exact absurd rfl hax
        | tail _ h => exact h
      exact ih hmem' hpa (fun y hy hpy => huniq y (List.mem_cons_of_mem x hy) hpy)

/-- `checkIdList` only ever produces 404 errors. -/
theorem checkIdList_err (table : List String) (ids : Option (List String))
    (kind : String) (e : HResp) (h : checkIdList table ids kind = some e) :
    ∃ m, e = .err 404 m := by
  rcases ids with _ | l
  · simp [checkIdList] at h
  · simp only [checkIdList] at h
    split_ifs at h
    all_goals first
      | exact Option.noConfusion h
      | (injection h with h; exact ⟨_, h.symm⟩)

/-- `checkTypeId` only ever produces 404 errors. -/
theorem checkTypeId_err (table : List String) (tid : Option String)
    (e : HResp) (h : checkTypeId table tid = some e) :
    ∃ m, e = .err 404 m := by
  rcases tid with _ | t
  · simp [checkTypeId] at h
  · simp only [checkTypeId] at h
    split_ifs at h
    all_goals first
      | exact Option.noConfusion h
      | (injection h with h; exact ⟨_, h.symm⟩)

/-- PATCH happy path: when the lookup succeeds, the caller is the author and
all three taxonomy validations pass, the handler persists the merge keyed by
the found space's id and returns the merged row. -/
theorem updateSpace_ok (slugStrict slugDefault : String → String) (db : Db)
    (callerId identifier : String) (p : UpdatePayload) (sp : Space)
    (hfind : findSpaceByIdOrSlug db.spaces identifier = some sp)
    (hauth : sp.submittedById = callerId)
    (htype : ∀ t, p.typeId = some t → t ∈ db.typeIds)
    (hcats : checkIdList db.categoryIds p.categoryIds "Category" = none)
    (hfeats : checkIdList db.featureIds p.featureIds "Feature" = none) :
    updateSpace slugStrict slugDefault db callerId identifier p =
      (.ok 200 (mergeUpdate slugStrict slugDefault
          (db.spaces.map (fun s => s.slug)) sp p),
        db.spaces.map (fun s =>
          if s.id == sp.id then
            mergeUpdate slugStrict slugDefault
              (db.spaces.map (fun s => s.slug)) sp p
          else s)) := by
  have hct : checkTypeId db.typeIds p.typeId = none := by
    cases hp : p.typeId with
    | none => rfl
    | some t => simp [checkTypeId, htype t hp]
  simp [updateSpace, hfind, hauth, hct, hcats, hfeats]

/-- POST happy path: when the type id resolves and both taxonomy validations
pass, the handler inserts `createdSpace` and returns it with 201. -/
theorem createSpace_ok (slugStrict slugDefault : String → String) (db : Db)
    (authedUserId freshId : String) (p : CreatePayload)
    (htype : p.typeId ∈ db.typeIds)
    (hcats : checkIdList db.categoryIds p.categoryIds "Category" = none)
    (hfeats : checkIdList db.featureIds p.featureIds "Feature" = none) :
    createSpace slugStrict slugDefault db authedUserId freshId p =
      (.ok 201 (createdSpace slugStrict slugDefault db authedUserId freshId p),
        db.spaces ++
          [createdSpace slugStrict slugDefault db authedUserId freshId p]) := by
  simp [createSpace, htype, hcats, hfeats]

/-! ## Claims -/

/-- C3: for every display name and every finite set of existing Spaces,
`ensureUniqueSlug` returns a slug not currently used by any existing Space;
its first candidate (`slugCandidate … 0`) is the strict, lowercased
slugification of the name, and each retry candidate (`slugCandidate … k`,
`k ≥ 1`) is the default-options slugification of the original name — not the
previous candidate — concatenated with a hyphen and a counter that starts at
1 and increments until an unused value is found (minimality: every earlier
candidate was in use). -/
theorem claim_C3_slug_fresh_and_candidate_shape
    (slugStrict slugDefault : String → String) (existing : List String)
    (baseName : String) :
    ∃ r, ensureUniqueSlug slugStrict slugDefault existing baseName = some r ∧
      ensureUniqueSlugT slugStrict slugDefault existing baseName = r ∧
      r ∉ existing ∧
      ∃ k, r = slugCandidate (slugStrict baseName) (slugDefault baseName) k ∧
        ∀ j < k,
          slugCandidate (slugStrict baseName) (slugDefault baseName) j ∈
            existing := by
  obtain ⟨hfree, k, hk, hprev⟩ :=
    ensureUniqueSlugT_spec slugStrict slugDefault existing baseName
  exact ⟨_, ensureUniqueSlugT_eq_go slugStrict slugDefault existing baseName,
    rfl, hfree, k, hk, hprev⟩

/-- C8: for every display name and every finite set of existing Spaces, the
retry loop of `ensureUniqueSlug` terminates within `existing.length + 2`
membership checks (the loop body run with that much fuel returns a result),
and any larger fuel returns the same result — so the source's unbounded loop
terminates with this bound even though it enforces none. -/
theorem claim_C8_slug_loop_terminates
    (slugStrict slugDefault : String → String) (existing : List String)
    (baseName : String) :
    (ensureUniqueSlugGo existing (slugDefault baseName) (existing.length + 2)
        (slugStrict baseName) 1).isSome ∧
      ∀ fuel, existing.length + 2 ≤ fuel →
        ensureUniqueSlugGo existing (slugDefault baseName) fuel
            (slugStrict baseName) 1 =
          ensureUniqueSlugGo existing (slugDefault baseName)
            (existing.length + 2) (slugStrict baseName) 1 := by
  refine ⟨ensureUniqueSlugGo_isSome existing _ _, ?_⟩
  intro fuel hf
  obtain ⟨r, hr⟩ := Option.isSome_iff_exists.mp
    (ensureUniqueSlugGo_isSome existing (slugDefault baseName)
      (slugStrict baseName))
  rw [hr, go_fuel_mono existing (slugDefault baseName) (existing.length + 2)
    fuel _ 1 r hf hr]

/-- C1 counterexample: the claim says every mutation path maps a
unique-constraint violation to Conflict/409, but the create path's `catch`
block returns 500 with a generic message for a P2002 (e.g. a slug collision
at write time). -/
theorem claim_C1_counterexample :
    createSpaceCatch
        (.known "P2002" "Unique constraint failed on the fields: (slug)") =
      (500, "Failed to create space due to an internal server error.") ∧
    (createSpaceCatch
        (.known "P2002" "Unique constraint failed on the fields: (slug)")).1 ≠
      409 := by
  exact ⟨rfl, by decide⟩

/-- C1 amended: only the update path performs the kind-determined mapping
(unique-constraint → 409, related-record-missing → 404, any other known
persistence error → 500 with a generic message); the create path maps every
caught error to 500 with a generic message, and the delete path maps
related-record-missing to 404 and everything else — including
unique-constraint violations — to 500 with a generic message. -/
theorem claim_C1_amended :
    (∀ code message, updateSpaceCatch (.known code message) =
      if code = "P2002" then
        (409, "A space with this name or slug already exists.")
      else if code = "P2025" then
        (404,
          "One or more related records (type, category, feature) not found.")
      else (500, "Database operation failed unexpectedly.")) ∧
    (∀ e, createSpaceCatch e =
      (500, "Failed to create space due to an internal server error.")) ∧
    (∀ code message, deleteSpaceCatch (.known code message) =
      if code = "P2025" then (404, "Space not found.")
      else (500, "Failed to delete space due to an internal server error.")) ∧
    (∀ message, deleteSpaceCatch (.jsError message) =
      (500, "Failed to delete space due to an internal server error.")) := by
  exact ⟨fun code message => rfl, fun e => rfl, fun code message => rfl,
    fun message => rfl⟩

/-- C2: on any successful update of an existing Space, a `categoryIds`
(resp. `featureIds`) field present in the payload — including present as an
empty list — makes the stored association set exactly the supplied list
(full replacement), and an absent field leaves the association set unchanged;
the persisted table replaces only the row with the Space's id. -/
theorem claim_C2_association_replacement
    (slugStrict slugDefault : String → String) (db : Db)
    (callerId identifier : String) (p : UpdatePayload) (sp usp : Space)
    (ndb : List Space)
    (hfind : findSpaceByIdOrSlug db.spaces identifier = some sp)
    (hok : updateSpace slugStrict slugDefault db callerId identifier p =
      (.ok 200 usp, ndb)) :
    (∀ l, p.categoryIds = some l → usp.categoryIds = l) ∧
      (p.categoryIds = none → usp.categoryIds = sp.categoryIds) ∧
      (∀ l, p.featureIds = some l → usp.featureIds = l) ∧
      (p.featureIds = none → usp.featureIds = sp.featureIds) ∧
      ndb = db.spaces.map (fun s => if s.id == sp.id then usp else s) := by
  simp only [updateSpace, hfind] at hok
  split_ifs at hok with hauth
  · exact absurd hok (by simp)
  · split at hok
    · rename_i e heq
      obtain ⟨m, rfl⟩ := checkTypeId_err _ _ _ heq
      exact absurd hok (by simp)
    · split at hok
      · rename_i e heq
        obtain ⟨m, rfl⟩ := checkIdList_err _ _ _ _ heq
        exact absurd hok (by simp)
      · split at hok
        · rename_i e heq
          obtain ⟨m, rfl⟩ := checkIdList_err _ _ _ _ heq
          exact absurd hok (by simp)
        · rw [Prod.mk.injEq, HResp.ok.injEq] at hok
          obtain ⟨⟨-, h1⟩, h2⟩ := hok
          subst h1
          subst h2
          refine ⟨fun l hl => ?_, fun hl => ?_, fun l hl => ?_, fun hl => ?_,
            rfl⟩ <;> simp [mergeUpdate, hl]

/-- C4: an update or delete request by a caller who is not the target
Space's author fails with 403 after the existence check, regardless of the
payload (so before any validation), and the Space table is returned
unchanged. -/
theorem claim_C4_forbidden_is_pure
    (slugStrict slugDefault : String → String) (db : Db)
    (callerId identifier did : String) (p : UpdatePayload) (sp spd : Space)
    (hfind : findSpaceByIdOrSlug db.spaces identifier = some sp)
    (hauth : sp.submittedById ≠ callerId)
    (hfindd : db.spaces.find? (fun s => s.id == did) = some spd)
    (hauthd : spd.submittedById ≠ callerId) :
    updateSpace slugStrict slugDefault db callerId identifier p =
      (.err 403 "Forbidden: You do not have permission to update this space.",
        db.spaces) ∧
    deleteSpace db callerId did =
      (.err 403 "Forbidden: You do not have permission to delete this space.",
        db.spaces) ∧
    (∀ ident2, findSpaceByIdOrSlug db.spaces ident2 = none →
      updateSpace slugStrict slugDefault db callerId ident2 p =
        (.err 404 "Space not found.", db.spaces)) ∧
    (∀ id2, db.spaces.find? (fun s => s.id == id2) = none →
      deleteSpace db callerId id2 =
        (.err 404 "Space not found.", db.spaces)) := by
  refine ⟨?_, ?_, ?_, ?_⟩
  · simp [updateSpace, hfind, hauth]
  · simp [deleteSpace, hfindd, hauthd]
  · intro ident2 h
    simp [updateSpace, h]
  · intro id2 h
    simp [deleteSpace, h]

/-- C6: on a successful update, a payload name differing from the stored
name puts a freshly generated unique slug in the update set; a payload name
equal to the stored name leaves the slug untouched; and the persisted write
is keyed by the Space's immutable id (rows are selected by `id`, never by
slug, and the updated row keeps its id). -/
theorem claim_C6_slug_regeneration_and_id_keyed_write
    (slugStrict slugDefault : String → String) (db : Db)
    (callerId identifier : String) (p : UpdatePayload) (sp : Space)
    (hfind : findSpaceByIdOrSlug db.spaces identifier = some sp)
    (hauth : sp.submittedById = callerId)
    (htype : ∀ t, p.typeId = some t → t ∈ db.typeIds)
    (hcats : checkIdList db.categoryIds p.categoryIds "Category" = none)
    (hfeats : checkIdList db.featureIds p.featureIds "Feature" = none) :
    ∃ usp, updateSpace slugStrict slugDefault db callerId identifier p =
        (.ok 200 usp,
          db.spaces.map (fun s => if s.id == sp.id then usp else s)) ∧
      usp.id = sp.id ∧
      (∀ n, p.name = some n → n ≠ sp.name →
        usp.slug = ensureUniqueSlugT slugStrict slugDefault
          (db.spaces.map (fun s => s.slug)) n) ∧
      (p.name = some sp.name → usp.slug = sp.slug) := by
  refine ⟨_, updateSpace_ok slugStrict slugDefault db callerId identifier p sp
    hfind hauth htype hcats hfeats, rfl, ?_, ?_⟩
  · intro n hn hne
    simp [mergeUpdate, hn, hne]
  · intro hn
    simp [mergeUpdate, hn]

/-- C7: the stored description is never null.  On a successful create an
absent or null payload description is stored as `""` and any string value
passes through unchanged; on a successful update a present-but-null
description is stored as `""`, a present string passes through, and an
absent one leaves the stored (non-null) value in place. -/
theorem claim_C7_description_normalisation
    (slugStrict slugDefault : String → String) (db : Db)
    (authedUserId freshId callerId identifier : String)
    (p : CreatePayload) (q : UpdatePayload) (sp : Space)
    (htypeC : p.typeId ∈ db.typeIds)
    (hcatsC : checkIdList db.categoryIds p.categoryIds "Category" = none)
    (hfeatsC : checkIdList db.featureIds p.featureIds "Feature" = none)
    (hfind : findSpaceByIdOrSlug db.spaces identifier = some sp)
    (hauth : sp.submittedById = callerId)
    (htypeU : ∀ t, q.typeId = some t → t ∈ db.typeIds)
    (hcatsU : checkIdList db.categoryIds q.categoryIds "Category" = none)
    (hfeatsU : checkIdList db.featureIds q.featureIds "Feature" = none) :
    (∃ csp dbc,
      createSpace slugStrict slugDefault db authedUserId freshId p =
        (.ok 201 csp, dbc) ∧
      ((p.description = none ∨ p.description = some none) →
        csp.description = "") ∧
      (∀ s, p.description = some (some s) → csp.description = s)) ∧
    (∃ usp dbu,
      updateSpace slugStrict slugDefault db callerId identifier q =
        (.ok 200 usp, dbu) ∧
      (q.description = some none → usp.description = "") ∧
      (∀ s, q.description = some (some s) → usp.description = s) ∧
      (q.description = none → usp.description = sp.description)) := by
  constructor
  · refine ⟨_, _, createSpace_ok slugStrict slugDefault db authedUserId
      freshId p htypeC hcatsC hfeatsC, ?_, ?_⟩
    · rintro (hd | hd) <;> simp [createdSpace, descriptionOrEmpty, hd]
    · intro s hs
      by_cases h : s = "" <;> simp [createdSpace, descriptionOrEmpty, hs, h]
  · refine ⟨_, _, updateSpace_ok slugStrict slugDefault db callerId identifier
      q sp hfind hauth htypeU hcatsU hfeatsU, ?_, ?_, ?_⟩
    · intro hd
      simp [mergeUpdate, hd]
    · intro s hs
      simp [mergeUpdate, hs]
    · intro hd
      simp [mergeUpdate, hd]

/-- C9: the slug uniqueness check never excludes the Space being updated.
Renaming a Space to a name whose strict slugification equals the Space's own
current slug makes the first candidate collide (with the Space itself), so
the update stores a suffixed slug built from the default-options
slugification of the new name — different from the current slug — instead
of keeping it. -/
theorem claim_C9_self_collision_forces_suffix
    (slugStrict slugDefault : String → String) (db : Db)
    (callerId identifier n : String) (p : UpdatePayload) (sp : Space)
    (hsp : sp ∈ db.spaces)
    (hfind : findSpaceByIdOrSlug db.spaces identifier = some sp)
    (hauth : sp.submittedById = callerId)
    (hname : p.name = some n)
    (hneq : n ≠ sp.name)
    (hcollide : slugStrict n = sp.slug)
    (htype : ∀ t, p.typeId = some t → t ∈ db.typeIds)
    (hcats : checkIdList db.categoryIds p.categoryIds "Category" = none)
    (hfeats : checkIdList db.featureIds p.featureIds "Feature" = none) :
    ∃ usp, updateSpace slugStrict slugDefault db callerId identifier p =
        (.ok 200 usp,
          db.spaces.map (fun s => if s.id == sp.id then usp else s)) ∧
      usp.slug ∉ db.spaces.map (fun s => s.slug) ∧
      usp.slug ≠ sp.slug ∧
      ∃ k, 1 ≤ k ∧ usp.slug = slugDefault n ++ "-" ++ Nat.repr k := by
  refine ⟨_, updateSpace_ok slugStrict slugDefault db callerId identifier p sp
    hfind hauth htype hcats hfeats, ?_⟩
  have hslugmem : sp.slug ∈ db.spaces.map (fun s => s.slug) :=
    List.mem_map_of_mem _ hsp
  have hslug : (mergeUpdate slugStrict slugDefault
      (db.spaces.map (fun s => s.slug)) sp p).slug =
      ensureUniqueSlugT slugStrict slugDefault
        (db.spaces.map (fun s => s.slug)) n := by
    simp [mergeUpdate, hname, hneq]
  obtain ⟨hfree, k, hk, hprev⟩ := ensureUniqueSlugT_spec slugStrict
    slugDefault (db.spaces.map (fun s => s.slug)) n
  rw [hslug]
  refine ⟨hfree, fun h => hfree (h ▸ hslugmem), ?_⟩
  match k, hk with
  | 0, hk =>
    rw [hk, slugCandidate, hcollide] at hfree
    exact absurd hslugmem hfree
  | k + 1, hk =>
    exact ⟨k + 1, by omega, hk⟩

/-- C10: deleteSpace looks its target up only by the opaque id.  For an
existing Space whose slug is no row's id, passing the slug as the delete
identifier yields 404 and leaves the table unchanged, even though the shared
read/update lookup resolves the same slug to that Space, and an update
addressed by the slug succeeds for the author. -/
theorem claim_C10_delete_rejects_slug
    (slugStrict slugDefault : String → String) (db : Db) (callerId : String)
    (sp : Space)
    (hsp : sp ∈ db.spaces)
    (hids : ∀ t ∈ db.spaces, t.id ≠ sp.slug)
    (hslugs : ∀ t ∈ db.spaces, t.slug = sp.slug → t = sp) :
    deleteSpace db callerId sp.slug = (.err 404 "Space not found.", db.spaces) ∧
    findSpaceByIdOrSlug db.spaces sp.slug = some sp ∧
    (∃ usp ndb,
      updateSpace slugStrict slugDefault db sp.submittedById sp.slug
        UpdatePayload.empty = (.ok 200 usp, ndb)) := by
  have hfound : findSpaceByIdOrSlug db.spaces sp.slug = some sp := by
    apply find?_eq_some_of_unique _ sp db.spaces hsp (by simp)
    intro x hx hpx
    simp only [Bool.or_eq_true, beq_iff_eq] at hpx
    rcases hpx with hid | hslug
    · exact absurd hid (hids x hx)
    · exact hslugs x hx hslug
  refine ⟨?_, hfound, ?_⟩
  · have hnone : db.spaces.find? (fun s => s.id == sp.slug) = none := by
      rw [List.find?_eq_none]
      intro x hx
      simp [hids x hx]
    simp [deleteSpace, hnone]
  · exact ⟨_, _, updateSpace_ok slugStrict slugDefault db sp.submittedById
      sp.slug UpdatePayload.empty sp hfound rfl (fun t ht => by cases ht)
      rfl rfl⟩

/-- C5: over a duplicate-free store, a supplied taxonomy id list containing
unresolved ids makes create and update fail with 404 whose message names
every missing id of that kind (category failures are reported without
consulting the feature list and vice versa — per kind, not aggregated), and
a missing `typeId` fails with 404 naming that exact id. -/
theorem claim_C5_missing_ids_reported_per_kind
    (slugStrict slugDefault : String → String) (db : Db)
    (authedUserId freshId callerId identifier : String)
    (hnodupC : db.categoryIds.Nodup) (hnodupF : db.featureIds.Nodup) :
    (∀ p : CreatePayload, p.typeId ∉ db.typeIds →
      createSpace slugStrict slugDefault db authedUserId freshId p =
        (.err 404 ("Space Type with ID \x27" ++ p.typeId ++
          "\x27 not found."), db.spaces)) ∧
    (∀ (p : CreatePayload) (l : List String), p.typeId ∈ db.typeIds →
      p.categoryIds = some l →
      l.filter (fun i => !(db.categoryIds.contains i)) ≠ [] →
      createSpace slugStrict slugDefault db authedUserId freshId p =
        (.err 404 ("One or more Category IDs not found: " ++
          String.intercalate ", "
            (l.filter (fun i => !(db.categoryIds.contains i))) ++ "."),
          db.spaces)) ∧
    (∀ (p : CreatePayload) (l : List String), p.typeId ∈ db.typeIds →
      checkIdList db.categoryIds p.categoryIds "Category" = none →
      p.featureIds = some l →
      l.filter (fun i => !(db.featureIds.contains i)) ≠ [] →
      createSpace slugStrict slugDefault db authedUserId freshId p =
        (.err 404 ("One or more Feature IDs not found: " ++
          String.intercalate ", "
            (l.filter (fun i => !(db.featureIds.contains i))) ++ "."),
          db.spaces)) ∧
    (∀ (q : UpdatePayload) (sp : Space) (t : String),
      findSpaceByIdOrSlug db.spaces identifier = some sp →
      sp.submittedById = callerId → q.typeId = some t → t ∉ db.typeIds →
      updateSpace slugStrict slugDefault db callerId identifier q =
        (.err 404 ("Space Type with ID \x27" ++ t ++ "\x27 not found."),
          db.spaces)) ∧
    (∀ (q : UpdatePayload) (sp : Space) (l : List String),
      findSpaceByIdOrSlug db.spaces identifier = some sp →
      sp.submittedById = callerId →
      (∀ t, q.typeId = some t → t ∈ db.typeIds) →
      q.categoryIds = some l →
      l.filter (fun i => !(db.categoryIds.contains i)) ≠ [] →
      updateSpace slugStrict slugDefault db callerId identifier q =
        (.err 404 ("One or more Category IDs not found: " ++
          String.intercalate ", "
            (l.filter (fun i => !(db.categoryIds.contains i))) ++ "."),
          db.spaces)) ∧
    (∀ (q : UpdatePayload) (sp : Space) (l : List String),
      findSpaceByIdOrSlug db.spaces identifier = some sp →
      sp.submittedById = callerId →
      (∀ t, q.typeId = some t → t ∈ db.typeIds) →
      checkIdList db.categoryIds q.categoryIds "Category" = none →
      q.featureIds = some l →
      l.filter (fun i => !(db.featureIds.contains i)) ≠ [] →
      updateSpace slugStrict slugDefault db callerId identifier q =
        (.err 404 ("One or more Feature IDs not found: " ++
          String.intercalate ", "
            (l.filter (fun i => !(db.featureIds.contains i))) ++ "."),
          db.spaces)) := by
  refine ⟨?_, ?_, ?_, ?_, ?_, ?_⟩
  · intro p hmiss
    simp [createSpace, hmiss]
  · intro p l htype hq hne
    simp [createSpace, htype, hq,
      checkIdList_missing db.categoryIds l "Category" hnodupC hne]
  · intro p l htype hcats hq hne
    simp [createSpace, htype, hcats, hq,
      checkIdList_missing db.featureIds l "Feature" hnodupF hne]
  · intro q sp t hfind hauth ht hmiss
    simp [updateSpace, hfind, hauth, checkTypeId, ht, hmiss]
  · intro q sp l hfind hauth htype hq hne
    have hct : checkTypeId db.typeIds q.typeId = none := by
      cases hp : q.typeId with
      | none => rfl
      | some t => simp [checkTypeId, htype t hp]
    simp [updateSpace, hfind, hauth, hct, hq,
      checkIdList_missing db.categoryIds l "Category" hnodupC hne]
  · intro q sp l hfind hauth htype hcats hq hne
    have hct : checkTypeId db.typeIds q.typeId = none := by
      cases hp : q.typeId with
      | none => rfl
      | some t => simp [checkTypeId, htype t hp]
    simp [updateSpace, hfind, hauth, hct, hcats, hq,
      checkIdList_missing db.featureIds l "Feature" hnodupF hne]

/-! ## Concrete sample store and payloads for instantiating the theorems -/

def wSp : Space :=
  { id := "sp1", name := "Taman Bungkul", slug := "taman-bungkul"
    alternateNames := [], description := "a park", activities := []
    historicalContext := none, architecturalStyle := none
    operatingHours := none, entranceFee := none, contactInfo := none
    accessibility := none, typeId := "t1", submittedById := "u1"
    categoryIds := ["c1"], featureIds := ["f1"] }

def wDb : Db :=
  { spaces := [wSp], typeIds := ["t1"], categoryIds := ["c1", "c2"]
    featureIds := ["f1"] }

def wQclear : UpdatePayload :=
  { UpdatePayload.empty with categoryIds := some [] }

def wSpCleared : Space := { wSp with categoryIds := [] }

def wQrename : UpdatePayload :=
  { UpdatePayload.empty with name := some "New Name" }

def wQnullDesc : UpdatePayload :=
  { UpdatePayload.empty with description := some none }

def wQself : UpdatePayload :=
  { UpdatePayload.empty with name := some "Taman Bungkul Park" }

def wP : CreatePayload :=
  { name := "Hidden Gem", alternateNames := none, description := some none
    activities := none, historicalContext := none
    architecturalStyle := none, operatingHours := none, entranceFee := none
    contactInfo := none, accessibility := none, typeId := "t1"
    categoryIds := none, featureIds := none }

def wPbadCats : CreatePayload :=
  { wP with categoryIds := some ["c9", "c1", "c7"] }

/-! ## Witnesses -/

/-- C2 witness: clearing the category set of the sample Space via
`categoryIds: []`. -/
theorem claim_C2_association_replacement_witness :
    (∀ l, wQclear.categoryIds = some l → wSpCleared.categoryIds = l) ∧
      (wQclear.categoryIds = none → wSpCleared.categoryIds = wSp.categoryIds) ∧
      (∀ l, wQclear.featureIds = some l → wSpCleared.featureIds = l) ∧
      (wQclear.featureIds = none → wSpCleared.featureIds = wSp.featureIds) ∧
      [wSpCleared] =
        wDb.spaces.map (fun s => if s.id == wSp.id then wSpCleared else s) :=
  claim_C2_association_replacement (fun _ => "x") (fun s => s) wDb "u1" "sp1"
    wQclear wSp wSpCleared [wSpCleared] (by decide) (by decide)

/-- C4 witness: caller `u2` is not the author of the sample Space; a
missing target yields 404 for any caller. -/
theorem claim_C4_forbidden_is_pure_witness :
    updateSpace (fun s => s) (fun s => s) wDb "u2" "sp1" UpdatePayload.empty =
      (.err 403 "Forbidden: You do not have permission to update this space.",
        wDb.spaces) ∧
    deleteSpace wDb "u2" "sp1" =
      (.err 403 "Forbidden: You do not have permission to delete this space.",
        wDb.spaces) ∧
    updateSpace (fun s => s) (fun s => s) wDb "u2" "ghost"
        UpdatePayload.empty = (.err 404 "Space not found.", wDb.spaces) ∧
    deleteSpace wDb "u2" "taman-bungkul" =
      (.err 404 "Space not found.", wDb.spaces) := by
  have h := claim_C4_forbidden_is_pure (fun s => s) (fun s => s) wDb "u2"
    "sp1" "sp1" UpdatePayload.empty wSp wSp (by decide) (by decide)
    (by decide) (by decide)
  exact ⟨h.1, h.2.1, h.2.2.1 "ghost" (by decide),
    h.2.2.2 "taman-bungkul" (by decide)⟩

/-- C6 witness: renaming the sample Space to a fresh name. -/
theorem claim_C6_slug_regeneration_witness :
    ∃ usp, updateSpace (fun _ => "new-name") (fun _ => "New-Name") wDb "u1"
        "sp1" wQrename =
        (.ok 200 usp,
          wDb.spaces.map (fun s => if s.id == wSp.id then usp else s)) ∧
      usp.id = wSp.id ∧
      (∀ n, wQrename.name = some n → n ≠ wSp.name →
        usp.slug = ensureUniqueSlugT (fun _ => "new-name")
          (fun _ => "New-Name") (wDb.spaces.map (fun s => s.slug)) n) ∧
      (wQrename.name = some wSp.name → usp.slug = wSp.slug) :=
  claim_C6_slug_regeneration_and_id_keyed_write (fun _ => "new-name")
    (fun _ => "New-Name") wDb "u1" "sp1" wQrename wSp (by decide) (by decide)
    (by intro t ht; simp [wQrename, UpdatePayload.empty] at ht) (by decide)
    (by decide)

/-- C7 witness: creating with a null description and updating the sample
Space with a null description. -/
theorem claim_C7_description_normalisation_witness :
    (∃ csp dbc,
      createSpace (fun _ => "hidden-gem") (fun _ => "Hidden-Gem") wDb "u1"
          "sp2" wP = (.ok 201 csp, dbc) ∧
      ((wP.description = none ∨ wP.description = some none) →
        csp.description = "") ∧
      (∀ s, wP.description = some (some s) → csp.description = s)) ∧
    (∃ usp dbu,
      updateSpace (fun _ => "hidden-gem") (fun _ => "Hidden-Gem") wDb "u1"
          "sp1" wQnullDesc = (.ok 200 usp, dbu) ∧
      (wQnullDesc.description = some none → usp.description = "") ∧
      (∀ s, wQnullDesc.description = some (some s) → usp.description = s) ∧
      (wQnullDesc.description = none → usp.description = wSp.description)) :=
  claim_C7_description_normalisation (fun _ => "hidden-gem")
    (fun _ => "Hidden-Gem") wDb "u1" "sp2" "u1" "sp1" wP wQnullDesc wSp
    (by decide) (by decide) (by decide) (by decide) (by decide)
    (by intro t ht; simp [wQnullDesc, UpdatePayload.empty] at ht) (by decide)
    (by decide)

/-- C9 witness: renaming the sample Space to a punctuation variant of its
own name, whose strict slugification is its own current slug. -/
theorem claim_C9_self_collision_witness :
    ∃ usp, updateSpace (fun _ => "taman-bungkul") (fun _ => "Taman-Bungkul")
        wDb "u1" "sp1" wQself =
        (.ok 200 usp,
          wDb.spaces.map (fun s => if s.id == wSp.id then usp else s)) ∧
      usp.slug ∉ wDb.spaces.map (fun s => s.slug) ∧
      usp.slug ≠ wSp.slug ∧
      ∃ k, 1 ≤ k ∧ usp.slug = "Taman-Bungkul" ++ "-" ++ Nat.repr k :=
  claim_C9_self_collision_forces_suffix (fun _ => "taman-bungkul")
    (fun _ => "Taman-Bungkul") wDb "u1" "sp1" "Taman Bungkul Park" wQself wSp
    (by decide) (by decide) (by decide) (by decide) (by decide) (by decide)
    (by intro t ht; simp [wQself, UpdatePayload.empty] at ht) (by decide)
    (by decide)

/-- C10 witness: deleting the sample Space by its slug. -/
theorem claim_C10_delete_rejects_slug_witness :
    deleteSpace wDb "u1" wSp.slug = (.err 404 "Space not found.", wDb.spaces) ∧
    findSpaceByIdOrSlug wDb.spaces wSp.slug = some wSp ∧
    (∃ usp ndb,
      updateSpace (fun s => s) (fun s => s) wDb wSp.submittedById wSp.slug
        UpdatePayload.empty = (.ok 200 usp, ndb)) :=
  claim_C10_delete_rejects_slug (fun s => s) (fun s => s) wDb "u1" wSp
    (by decide) (by decide) (by decide)

/-- C5 witness: creating with two unresolved category ids over the sample
store fails with 404 naming both of them. -/
theorem claim_C5_missing_ids_witness :
    createSpace (fun s => s) (fun s => s) wDb "u1" "sp2" wPbadCats =
      (.err 404 "One or more Category IDs not found: c9, c7.", wDb.spaces) := by
  have h := (claim_C5_missing_ids_reported_per_kind (fun s => s) (fun s => s)
    wDb "u1" "sp2" "u1" "sp1" (by decide) (by decide)).2.1 wPbadCats
    ["c9", "c1", "c7"] (by decide) (by decide) (by decide)
  exact h

end Terra
